import Mathlib

/-!
Verification of the NanoSync differential-update core (`src/index.js`) and
its command-line front end (`src/cli.js`).

The core operation `ezPatch` maintains, per tracked filter file:
  * an entry in the global config (`config.json`): `{lastFile, lastVersion}`;
  * a consumer-facing output directory holding `checkpoint.txt`, `meta.json`
    (`{checkpoint, latest}`) and numbered `k.patch` files;
  * a private snapshot cache file (named by `lastFile`) holding the raw
    content of the filter as of the last successful operation.

The shallow embedding below models one tracked filter and one output
directory.  File contents are `String`s; a missing or unreadable /
unparsable / type-invalid file is `none` (the JS code collapses all of
those failure modes into one `catch`).  The external unified-diff library
is an abstract parameter `diff : String → String → String`; the inverse
`apply` appears only in round-trip theorems, via the assumption
`apply old (diff old new) = new` stated there.  JS numbers that hold
version counters are modelled as `Int` (the sentinel `lastVersion = -1`
is negative).  The random cache filename generated on first build is
modelled by a fixed fresh name, since only one filter is tracked.
-/

/-- Per-filter entry of `config.json`: `{lastFile: string|null,
lastVersion: number}` (src/index.js lines 65-68). -/
structure FilterConfig where
  lastFile : Option String
  lastVersion : Int
deriving Repr, DecidableEq

/-- Contents of `meta.json`: `{checkpoint: number, latest: number}`
(src/index.js lines 82-85). -/
structure Meta where
  checkpoint : Int
  latest : Int
deriving Repr, DecidableEq

/-- The mutable on-disk state touched by one `ezPatch` call, for a single
filter and its output directory.  `patchFiles` is the output directory's
`k.patch` files as a write log: writing `k.patch` conses `(k, text)`, and
the newest entry for a key shadows older ones (a rewrite overwrites the
file). -/
structure SyncState where
  filterConfig : Option FilterConfig
  metaFile : Option Meta
  snapshotFile : Option String
  checkpointFile : Option String
  patchFiles : List (Int × String)
deriving Repr, DecidableEq

/-- The state before any call: no config entry, empty output directory,
no snapshot cache. -/
def initState : SyncState :=
  { filterConfig := none, metaFile := none, snapshotFile := none,
    checkpointFile := none, patchFiles := [] }

/-- Stands in for the random opaque cache filename generated on first
build (src/index.js lines 94-97); with a single tracked filter only its
presence matters. -/
def genName : String := "generated-snapshot.txt"

/-- Reading the content of patch file `k.patch` from the write log:
the most recent write wins. -/
def lookupPatch : List (Int × String) → Int → Option String
  | [], _ => none
  | p :: ps, k => if p.1 = k then some p.2 else lookupPatch ps k

/-- `createCheckpoint` (src/index.js lines 78-89): bump `lastVersion`,
copy the filter to `checkpoint.txt`, write `meta.json` with
`checkpoint = latest = lastVersion`, and refresh the snapshot cache.
Patch files from an earlier epoch are left in place (orphaned, not
deleted). -/
def createCheckpoint (fc : FilterConfig) (s : SyncState) (newf : String) : SyncState :=
  let v := fc.lastVersion + 1
  { s with
    filterConfig := some { fc with lastVersion := v },
    checkpointFile := some newf,
    metaFile := some { checkpoint := v, latest := v },
    snapshotFile := some newf }

/-- One call of `exports.ezPatch` (src/index.js lines 39-143), with the
filter's current content `newf`.  Branches, in source order:
  * no config entry, or `lastFile === null`: first build, checkpoint
    (lines 92-98);
  * `meta.json` or the cached snapshot missing/invalid: recovery
    checkpoint from the `catch` (lines 101-112);
  * both reads succeed.  The JS guard `if (meta && oldf)` tests
    truthiness, so an empty-string snapshot skips the whole block: the
    call only rewrites `config.json` unchanged.  Otherwise, if
    `meta.latest > meta.checkpoint + 10` a rollover checkpoint is taken
    (lines 115-120), else a patch is produced: `meta.latest++`,
    `lastVersion = meta.latest`, the diff is written to
    `(latest - checkpoint).patch`, `meta.json` and the snapshot cache are
    rewritten (lines 122-136). -/
def ezPatch (diff : String → String → String) (s : SyncState) (newf : String) : SyncState :=
  let fc := s.filterConfig.getD { lastFile := none, lastVersion := -1 }
  match fc.lastFile with
  | none => createCheckpoint { fc with lastFile := some genName } s newf
  | some _ =>
    match s.metaFile, s.snapshotFile with
    | some m, some oldf =>
      if oldf = "" then
        { s with filterConfig := some fc }
      else if m.checkpoint + 10 < m.latest then
        createCheckpoint fc s newf
      else
        let patchText := diff oldf newf
        { s with
          filterConfig := some { fc with lastVersion := m.latest + 1 },
          metaFile := some { m with latest := m.latest + 1 },
          patchFiles := (m.latest + 1 - m.checkpoint, patchText) :: s.patchFiles,
          snapshotFile := some newf }
    | _, _ => createCheckpoint fc s newf

/-- Does a call on state `s` take the checkpoint branch (first build,
recovery, or rollover)?  Mirrors the branch structure of `ezPatch`;
independent of the new content. -/
def performsCheckpoint (s : SyncState) : Bool :=
  match s.filterConfig with
  | none => true
  | some fc =>
    match fc.lastFile with
    | none => true
    | some _ =>
      match s.metaFile, s.snapshotFile with
      | some m, some oldf => !(oldf == "") && decide (m.checkpoint + 10 < m.latest)
      | _, _ => true

/-- Does a call on state `s` take the patch branch?  Mirrors the branch
structure of `ezPatch`. -/

def performsPatch (s : SyncState) : Bool :=
  match s.filterConfig with
  | none => false
  | some fc =>
    match fc.lastFile with
    | none => false
    | some _ =>
      match s.metaFile, s.snapshotFile with
      | some m, some oldf => !(oldf == "") && !(decide (m.checkpoint + 10 < m.latest))
      | _, _ => false

/-- A call either checkpoints or patches, except in the empty-snapshot
corner where it does neither. -/
def performsOp (s : SyncState) : Bool := performsCheckpoint s || performsPatch s

/-- A sequence of `ezPatch` calls with the given successive filter
contents. -/
def runEz (diff : String → String → String) (s : SyncState) (inputs : List String) : SyncState :=
  inputs.foldl (ezPatch diff) s

/-- Number of calls in the run that take the checkpoint branch. -/
def countCheckpoints (diff : String → String → String) (s : SyncState) : List String → Nat
  | [] => 0
  | x :: rest =>
    (if performsCheckpoint s then 1 else 0) + countCheckpoints diff (ezPatch diff s x) rest

/-- States reachable from the empty initial state by successful `ezPatch`
calls (no external tampering between calls). -/
inductive Reachable (diff : String → String → String) : SyncState → Prop
  | refl : Reachable diff initState
  | step {s : SyncState} (x : String) : Reachable diff s → Reachable diff (ezPatch diff s x)

/-- Outcome of the CLI front end (src/cli.js): either print `msg` to
standard error and exit with code 1, or call
`ezPatch filter output config` (exiting 0 if it succeeds, and via the
`catch` with code 1 if it throws). -/
inductive CliResult where
  | err (msg : String)
  | run (filter : String) (output : Option String) (config : Option String)
deriving Repr, DecidableEq

/-- JS truthiness test used by `cli.js` on `filter` and `config`:
`undefined` and the empty string are falsy. -/
def jsFalsy : Option String → Bool
  | none => true
  | some s => s == ""

/-- The test `arg.startsWith("-")` of src/cli.js line 82: since the
prefix is the single character `-`, it holds exactly when the first
character of `arg` is `-`. -/
def startsWithDash (s : String) : Bool := s.data.head? == some '-'

/-- The `for (let arg of process.argv)` loop of src/cli.js lines 75-107,
over the remaining arguments with the accumulated `filter`, `output`,
`config` and `lastFlag` variables.  Note the loop runs over the full
`process.argv`, whose first element is the node executable and second the
script path. -/
def cliLoop : List String → Option String → Option String → Option String →
    Option String → CliResult
  | [], filter, output, config, _ =>
    if jsFalsy filter then
      CliResult.err "Missing filter file"
    else
      CliResult.run (filter.getD "") output (if jsFalsy config then none else config)
  | arg :: rest, filter, output, config, lastFlag =>
    if jsFalsy filter then
      cliLoop rest (some arg) output config lastFlag
    else if startsWithDash arg then
      match lastFlag with
      | some flag => CliResult.err ("Missing argument for option " ++ flag)
      | none => cliLoop rest filter output config (some arg)
    else
      match lastFlag with
      | none => CliResult.err "Missing flag"
      | some "-o" => cliLoop rest filter (some arg) config none
      | some "-c" => cliLoop rest filter output (some arg) none
      | some flag => CliResult.err ("Unknown option " ++ flag)

/-- The whole argument-handling phase of src/cli.js (second variant,
lines 72-119), as a function of `process.argv`. -/
def parseCli (argv : List String) : CliResult :=
  cliLoop argv none none none none

/-- A concrete instantiation of the external diff function, used for
closed evaluations; the control flow of `ezPatch` never inspects the
diff's output. -/
def exDiff : String → String → String := fun _ b => b

/-- A state whose output directory already holds stale artifacts but whose
global config has no entry for the filter. -/
def clutteredState : SyncState :=
  { filterConfig := none, metaFile := some { checkpoint := 3, latest := 7 },
    snapshotFile := some "z", checkpointFile := some "w", patchFiles := [(1, "p")] }

/-- A previously checkpointed state whose `meta.json` has been deleted or
corrupted. -/
def corruptMetaState : SyncState :=
  { filterConfig := some { lastFile := some "cache.txt", lastVersion := 4 },
    metaFile := none, snapshotFile := some "old content",
    checkpointFile := some "old content", patchFiles := [(1, "p1")] }

/-- A valid, previously checkpointed state whose cached snapshot content
is the empty string (e.g. the filter file was empty at the last
operation). -/
def emptySnapshotState : SyncState :=
  { filterConfig := some { lastFile := some "cache.txt", lastVersion := 3 },
    metaFile := some { checkpoint := 3, latest := 3 },
    snapshotFile := some "", checkpointFile := some "", patchFiles := [] }

/-- The `lastVersion` the next call will base itself on: the config
entry's value, or the fresh-entry sentinel `-1` (src/index.js line 67). -/
def lastVersionOf (s : SyncState) : Int :=
  (s.filterConfig.map FilterConfig.lastVersion).getD (-1)

/-- Invariant of all states reachable without external tampering: either
nothing has been built yet, or the config entry and `meta.json` agree
(`lastVersion = latest`), the version counters satisfy
`latest ≥ checkpoint ≥ 0`, and the snapshot cache and `checkpoint.txt`
are present. -/
def GoodState (s : SyncState) : Prop :=
  s = initState ∨
  ∃ fc m, s.filterConfig = some fc ∧ fc.lastFile.isSome ∧
    s.metaFile = some m ∧ fc.lastVersion = m.latest ∧
    0 ≤ m.checkpoint ∧ m.checkpoint ≤ m.latest ∧
    s.snapshotFile.isSome ∧ s.checkpointFile.isSome

/-- A state whose `meta.json` was modified between calls: the config
entry still records `lastVersion = 5` but `meta.json` claims
`latest = 100` (with a nonempty cached snapshot, so the next call
patches). -/
def tamperedMetaState : SyncState :=
  { filterConfig := some { lastFile := some "cache.txt", lastVersion := 5 },
    metaFile := some { checkpoint := 100, latest := 100 },
    snapshotFile := some "old", checkpointFile := some "old", patchFiles := [] }

/-- A state in which a checkpoint was just written at version 0. -/
def c1Start : SyncState :=
  { filterConfig := some { lastFile := some "cache.txt", lastVersion := 0 },
    metaFile := some { checkpoint := 0, latest := 0 },
    snapshotFile := some "v0", checkpointFile := some "v0", patchFiles := [] }

/-- Eleven successive changed contents. -/
def c1Inputs : List String :=
  ["v1", "v2", "v3", "v4", "v5", "v6", "v7", "v8", "v9", "v10", "v11"]

/-- One step of a run that also records, as ghost data, the content of
each version-producing call: after the run, entry `v` of the list is
the filter content passed to the call that produced version `v`. -/
def stepH (diff : String → String → String) (p : SyncState × List String) (x : String) :
    SyncState × List String :=
  (ezPatch diff p.1 x, if performsOp p.1 then p.2 ++ [x] else p.2)

/-- A run of `ezPatch` calls from the empty initial state, paired with
the version-content history. -/
def runH (diff : String → String → String) (inputs : List String) :
    SyncState × List String :=
  inputs.foldl (stepH diff) (initState, [])

/-- The consumer's reconstruction procedure: start from `checkpoint.txt`
and apply `1.patch`, …, `k.patch` in ascending order, left to right. -/
def reconstruct (ap : String → String → String) (s : SyncState) : Nat → Option String
  | 0 => s.checkpointFile
  | k + 1 =>
    match reconstruct ap s k, lookupPatch s.patchFiles ((k : Int) + 1) with
    | some acc, some p => some (ap acc p)
    | _, _ => none

/-- Invariant tying a reached state to the version-content history
`hist`: `meta.json` and the config agree, `hist` has one entry per
version `0 … latest`, the snapshot cache holds the content of version
`latest`, `checkpoint.txt` holds the content of version `checkpoint`,
and for every `j < latest - checkpoint` the file `(j+1).patch` holds the
diff from the content of version `checkpoint + j` to that of version
`checkpoint + j + 1`. -/
def HistInv (diff : String → String → String) (s : SyncState) (hist : List String) : Prop :=
  ∃ fc m, s.filterConfig = some fc ∧ fc.lastFile.isSome ∧
    s.metaFile = some m ∧ fc.lastVersion = m.latest ∧
    0 ≤ m.checkpoint ∧ m.checkpoint ≤ m.latest ∧
    m.latest + 1 = hist.length ∧
    s.snapshotFile = hist[m.latest.toNat]? ∧
    s.checkpointFile = hist[m.checkpoint.toNat]? ∧
    ∀ j : Nat, (j : Int) < m.latest - m.checkpoint →
      ∃ a b, hist[m.checkpoint.toNat + j]? = some a ∧
        hist[m.checkpoint.toNat + j + 1]? = some b ∧
        lookupPatch s.patchFiles ((j : Int) + 1) = some (diff a b)

/-- A concrete instantiation of the external apply function matching
`exDiff`: together they satisfy the unified-diff round-trip assumption
`exApply a (exDiff a b) = b`. -/
def exApply : String → String → String := fun _ d => d

/-- Claim C4: for a filter path with no entry in the global config, the
first `ezPatch` call performs a checkpoint and writes `meta.json` with
`checkpoint = 0` and `latest = 0`, regardless of the content and of any
pre-existing files in the output directory. -/
theorem c4_first_build (diff : String → String → String) (s : SyncState) (x : String)
    (h : s.filterConfig = none) :
    performsCheckpoint s = true ∧
    (ezPatch diff s x).metaFile = some { checkpoint := 0, latest := 0 } ∧
    (ezPatch diff s x).checkpointFile = some x ∧
    (ezPatch diff s x).snapshotFile = some x ∧
    (ezPatch diff s x).filterConfig = some { lastFile := some genName, lastVersion := 0 } := by
  simp [ezPatch, createCheckpoint, performsCheckpoint, h]

/-- Witness for C4 at a concrete dirty state. -/
theorem c4_first_build_witness :
    clutteredState.filterConfig = none ∧
    (performsCheckpoint clutteredState = true ∧
      (ezPatch exDiff clutteredState "A").metaFile = some { checkpoint := 0, latest := 0 } ∧
      (ezPatch exDiff clutteredState "A").checkpointFile = some "A" ∧
      (ezPatch exDiff clutteredState "A").snapshotFile = some "A" ∧
      (ezPatch exDiff clutteredState "A").filterConfig =
        some { lastFile := some genName, lastVersion := 0 }) :=
  ⟨rfl, c4_first_build exDiff clutteredState "A" rfl⟩

/-- Claim C3: on a previously checkpointed filter (config entry with a
cache filename), if `meta.json` is missing or malformed or the cached
snapshot is missing, the call takes the recovery-checkpoint branch and
afterwards `meta.json` has `checkpoint = latest`.  In the embedding all
malformed-read cases are `none`, and `ezPatch` is a total function, so
the call completes without error. -/
theorem c3_corruption_recovery (diff : String → String → String) (s : SyncState) (x : String)
    (fc : FilterConfig) (f : String)
    (hfc : s.filterConfig = some fc) (hf : fc.lastFile = some f)
    (hbad : s.metaFile = none ∨ s.snapshotFile = none) :
    performsCheckpoint s = true ∧
    (ezPatch diff s x).metaFile =
      some { checkpoint := fc.lastVersion + 1, latest := fc.lastVersion + 1 } ∧
    (ezPatch diff s x).checkpointFile = some x ∧
    (ezPatch diff s x).snapshotFile = some x := by
  rcases hbad with h | h
  · cases ho : s.snapshotFile <;>
      simp [ezPatch, createCheckpoint, performsCheckpoint, hfc, hf, h, ho]
  · cases hm : s.metaFile <;>
      simp [ezPatch, createCheckpoint, performsCheckpoint, hfc, hf, h, hm]

/-- Witness for C3 at a concrete corrupted state. -/
theorem c3_corruption_recovery_witness :
    corruptMetaState.filterConfig =
      some { lastFile := some "cache.txt", lastVersion := 4 } ∧
    (performsCheckpoint corruptMetaState = true ∧
      (ezPatch exDiff corruptMetaState "B").metaFile =
        some { checkpoint := 5, latest := 5 } ∧
      (ezPatch exDiff corruptMetaState "B").checkpointFile = some "B" ∧
      (ezPatch exDiff corruptMetaState "B").snapshotFile = some "B") :=
  ⟨rfl, c3_corruption_recovery exDiff corruptMetaState "B"
    { lastFile := some "cache.txt", lastVersion := 4 } "cache.txt" rfl rfl (Or.inl rfl)⟩

/-- Claim C6 (code bug witnessed): with a valid `meta.json`, a cached
snapshot that reads successfully as the empty string, and no rollover
due, the call performs neither a patch nor a checkpoint: the JS guard
`if (meta && oldf)` treats the empty-string content as a failed read, so
the whole state is left unchanged — no patch file, no version increment.
The claim (and §4.1 of the spec: both reads succeed implies patch) says a
patch must be produced. -/
theorem c6_empty_snapshot_is_noop :
    performsOp emptySnapshotState = false ∧
    performsPatch emptySnapshotState = false ∧
    ezPatch exDiff emptySnapshotState "new content" = emptySnapshotState := by
  refine ⟨by decide, by decide, by decide⟩

/-- Claim C7 (code bug witnessed): the CLI loops over the full
`process.argv`, whose first entry is the node executable and second the
script path.  For the documented invocation `nsync filter.txt`
(`argv = [node, script, "filter.txt"]`) the executable path is taken as
the filter and the script path hits the "Missing flag" branch: the
process prints to standard error and exits 1 instead of passing
`filter.txt` to `ezPatch`.  Even with no user arguments, the parse
"succeeds" with the node executable path as the filter. -/
theorem c7_cli_takes_argv0_as_filter :
    parseCli ["/usr/bin/node", "/repo/src/cli.js", "filter.txt"] =
      CliResult.err "Missing flag" ∧
    parseCli ["/usr/bin/node", "/repo/src/cli.js", "filter.txt", "-o", "out"] =
      CliResult.err "Missing flag" ∧
    parseCli ["/usr/bin/node"] = CliResult.run "/usr/bin/node" none none := by
  refine ⟨by decide, by decide, by decide⟩

/-- Case analysis of one `ezPatch` call: it takes the checkpoint branch,
the patch branch, or (exactly when the snapshot cache holds the empty
string) changes nothing. -/
lemma ezPatch_cases (diff : String → String → String) (s : SyncState) (x : String) :
    (performsCheckpoint s = true ∧
      (ezPatch diff s x).metaFile =
        some { checkpoint := lastVersionOf s + 1, latest := lastVersionOf s + 1 } ∧
      (ezPatch diff s x).checkpointFile = some x ∧
      (ezPatch diff s x).snapshotFile = some x ∧
      (ezPatch diff s x).patchFiles = s.patchFiles ∧
      (∃ fc, (ezPatch diff s x).filterConfig = some fc ∧ fc.lastFile.isSome ∧
        fc.lastVersion = lastVersionOf s + 1)) ∨
    (performsPatch s = true ∧
      ∃ m oldf fc, s.metaFile = some m ∧ s.snapshotFile = some oldf ∧ oldf ≠ "" ∧
        m.latest ≤ m.checkpoint + 10 ∧
        s.filterConfig = some fc ∧ fc.lastFile.isSome ∧
        (ezPatch diff s x).metaFile = some { checkpoint := m.checkpoint, latest := m.latest + 1 } ∧
        (ezPatch diff s x).checkpointFile = s.checkpointFile ∧
        (ezPatch diff s x).snapshotFile = some x ∧
        (ezPatch diff s x).patchFiles =
          (m.latest + 1 - m.checkpoint, diff oldf x) :: s.patchFiles ∧
        (ezPatch diff s x).filterConfig = some { fc with lastVersion := m.latest + 1 }) ∨
    (performsOp s = false ∧ ezPatch diff s x = s ∧
      ∃ m fc, s.metaFile = some m ∧ s.filterConfig = some fc ∧ s.snapshotFile = some "") := by
  cases hc : s.filterConfig with
  | none =>
    left
    refine ⟨?_, ?_⟩
    · simp [performsCheckpoint, hc]
    · simp [ezPatch, createCheckpoint, lastVersionOf, hc]
  | some fc =>
    cases hf : fc.lastFile with
    | none =>
      left
      refine ⟨?_, ?_⟩
      · simp [performsCheckpoint, hc, hf]
      · simp [ezPatch, createCheckpoint, lastVersionOf, hc, hf]
    | some f =>
      cases hm : s.metaFile with
      | none =>
        left
        refine ⟨?_, ?_⟩
        · simp [performsCheckpoint, hc, hf, hm]
        · simp [ezPatch, createCheckpoint, lastVersionOf, hc, hf, hm]
      | some m =>
        cases ho : s.snapshotFile with
        | none =>
          left
          refine ⟨?_, ?_⟩
          · simp [performsCheckpoint, hc, hf, hm, ho]
          · simp [ezPatch, createCheckpoint, lastVersionOf, hc, hf, hm, ho]
        | some oldf =>
          by_cases he : oldf = ""
          · right; right
            subst he
            refine ⟨?_, ?_, m, fc, rfl, rfl, rfl⟩
            · simp [performsOp, performsCheckpoint, performsPatch, hc, hf, hm, ho]
            · have : ({ s with filterConfig := some fc } : SyncState) = s := by
                rw [← hc]
              simpa [ezPatch, hc, hf, hm, ho] using this
          · by_cases hr : m.checkpoint + 10 < m.latest
            · left
              refine ⟨?_, ?_⟩
              · simp [performsCheckpoint, hc, hf, hm, ho, he, hr]
              · simp [ezPatch, createCheckpoint, lastVersionOf, hc, hf, hm, ho, he, hr]
            · right; left
              refine ⟨?_, m, oldf, fc, rfl, rfl, he, by omega, rfl, by simp [hf], ?_⟩
              · simp [performsPatch, hc, hf, hm, ho, he, hr]
              · simp [ezPatch, hc, hf, hm, ho, he, hr]

lemma goodState_lastVersion {s : SyncState} (h : GoodState s) : -1 ≤ lastVersionOf s := by
  rcases h with rfl | ⟨fc, m, hfc, _, _, heq, hc0, hcl, _, _⟩
  · simp [lastVersionOf, initState]
  · have hv : lastVersionOf s = fc.lastVersion := by simp [lastVersionOf, hfc]
    omega

lemma goodState_step (diff : String → String → String) (s : SyncState) (x : String)
    (h : GoodState s) : GoodState (ezPatch diff s x) := by
  rcases ezPatch_cases diff s x with
      ⟨hpc, hmeta, hck, hsnap, hpf, fc', hfc', hlf', hlv'⟩ |
      ⟨hpp, m, oldf, fc, hm, ho, he, hle, hc, hlf, hmeta, hck, hsnap, hpf, hfc'⟩ |
      ⟨hop, heq, m, fc, hm, hc, ho⟩
  · have hlv := goodState_lastVersion h
    right
    refine ⟨fc', { checkpoint := lastVersionOf s + 1, latest := lastVersionOf s + 1 },
      hfc', hlf', hmeta, hlv', ?_, ?_, by simp [hsnap], by simp [hck]⟩
    · change 0 ≤ lastVersionOf s + 1
      omega
    · change lastVersionOf s + 1 ≤ lastVersionOf s + 1
      omega
  · rcases h with rfl | ⟨fc0, m0, hfc0, hlf0, hm0, heq0, hc00, hcl0, hsnap0, hck0⟩
    · simp [initState] at hm
    · have hm' := hm
      rw [hm0] at hm'
      have hmm : m0 = m := Option.some_injective _ hm'
      rw [hmm] at hc00 hcl0
      right
      refine ⟨{ fc with lastVersion := m.latest + 1 },
        { checkpoint := m.checkpoint, latest := m.latest + 1 },
        hfc', hlf, hmeta, rfl, hc00, ?_, by simp [hsnap], ?_⟩
      · change m.checkpoint ≤ m.latest + 1
        omega
      · rw [hck]
        exact hck0
  · rw [heq]
    exact h

/-- Every state reachable by `ezPatch` calls from the empty initial state
satisfies the `GoodState` invariant. -/
lemma reachable_goodState {diff : String → String → String} {s : SyncState}
    (h : Reachable diff s) : GoodState s := by
  induction h with
  | refl => exact Or.inl rfl
  | step x _ ih => exact goodState_step _ _ x ih

lemma checkpoint_patch_exclusive (s : SyncState) :
    performsCheckpoint s = true → performsPatch s = true → False := by
  obtain ⟨c, mf, sf, cf, pf⟩ := s
  rcases c with _ | fc
  · simp [performsCheckpoint, performsPatch]
  · obtain ⟨lf, lv⟩ := fc
    rcases lf with _ | f
    · simp [performsCheckpoint, performsPatch]
    · rcases mf with _ | m
      · simp [performsCheckpoint, performsPatch]
      · rcases sf with _ | oldf
        · simp [performsCheckpoint, performsPatch]
        · by_cases he : oldf = "" <;>
            by_cases hr : m.checkpoint + 10 < m.latest <;>
            simp [performsCheckpoint, performsPatch, he, hr]

/-- Claim C9: on every reachable state the persisted `meta.json`
satisfies `latest ≥ checkpoint ≥ 0`; a call that takes the checkpoint
branch establishes `checkpoint = latest`, and one that takes the patch
branch keeps `checkpoint` and increments `latest` by exactly one. -/
theorem c9_meta_version_invariant (diff : String → String → String) (s : SyncState)
    (h : Reachable diff s) :
    (∀ m, s.metaFile = some m → 0 ≤ m.checkpoint ∧ m.checkpoint ≤ m.latest) ∧
    (∀ x, performsCheckpoint s = true →
      ∃ v, (ezPatch diff s x).metaFile = some { checkpoint := v, latest := v }) ∧
    (∀ x m, performsPatch s = true → s.metaFile = some m →
      (ezPatch diff s x).metaFile =
        some { checkpoint := m.checkpoint, latest := m.latest + 1 }) := by
  refine ⟨?_, ?_, ?_⟩
  · intro m hm
    rcases reachable_goodState h with rfl | ⟨fc, m0, _, _, hm0, _, hc0, hcl, _, _⟩
    · simp [initState] at hm
    · rw [hm0] at hm
      cases Option.some_injective _ hm
      exact ⟨hc0, hcl⟩
  · intro x hpc
    rcases ezPatch_cases diff s x with ⟨_, hmeta, _⟩ | ⟨hpp, _⟩ | ⟨hop, _⟩
    · exact ⟨lastVersionOf s + 1, hmeta⟩
    · exact (checkpoint_patch_exclusive s hpc hpp).elim
    · simp [performsOp, hpc] at hop
  · intro x m hpp hm
    rcases ezPatch_cases diff s x with ⟨hpc, _⟩ |
        ⟨_, m1, _, _, hm1, _, _, _, _, _, hmeta, _⟩ | ⟨hop, _⟩
    · exact (checkpoint_patch_exclusive s hpc hpp).elim
    · rw [hm] at hm1
      cases Option.some_injective _ hm1
      exact hmeta
    · simp [performsOp, hpp] at hop

/-- Witness for C9: the state after one call from the empty state is
reachable, its meta is `{checkpoint := 0, latest := 0}`, and the bounds
hold there. -/
theorem c9_meta_version_invariant_witness :
    0 ≤ (0 : Int) ∧ (0 : Int) ≤ 0 :=
  (c9_meta_version_invariant exDiff (ezPatch exDiff initState "A")
    (Reachable.step "A" Reachable.refl)).1 { checkpoint := 0, latest := 0 } (by decide)

/-- Claim C10: after every successful call from a reachable (untampered)
state, the config entry's `lastVersion` and the `latest` field of
`meta.json` exist and agree. -/
theorem c10_config_meta_agreement (diff : String → String → String) (s : SyncState)
    (x : String) (h : Reachable diff s) :
    ∃ fc m, (ezPatch diff s x).filterConfig = some fc ∧
      (ezPatch diff s x).metaFile = some m ∧ fc.lastVersion = m.latest := by
  have hg : GoodState (ezPatch diff s x) :=
    goodState_step diff s x (reachable_goodState h)
  rcases hg with hinit | ⟨fc, m, hfc, _, hm, heq, _, _, _, _⟩
  · exfalso
    rcases ezPatch_cases diff s x with ⟨_, hmeta, _⟩ |
        ⟨_, _, _, _, _, _, _, _, _, _, hmeta, _⟩ | ⟨_, heq, m0, _, hm0, _, _⟩
    · rw [hinit] at hmeta; simp [initState] at hmeta
    · rw [hinit] at hmeta; simp [initState] at hmeta
    · rw [heq.symm.trans hinit] at hm0; simp [initState] at hm0
  · exact ⟨fc, m, hfc, hm, heq⟩

/-- Witness for C10 after one concrete call. -/
theorem c10_config_meta_agreement_witness :
    ∃ fc m, (ezPatch exDiff initState "A").filterConfig = some fc ∧
      (ezPatch exDiff initState "A").metaFile = some m ∧ fc.lastVersion = m.latest :=
  c10_config_meta_agreement exDiff initState "A" Reachable.refl

/-- Claim C8 counterexample: on a patch the code assigns
`lastVersion = meta.latest + 1` (src/index.js lines 127-128), so when
`meta.json` was modified between calls the increment is not by one: here
`lastVersion` jumps from 5 to 101.  The claim's parenthetical asserting
the exactly-one increment survives external modification of `meta.json`
is therefore false. -/
theorem c8_counterexample :
    performsPatch tamperedMetaState = true ∧
    lastVersionOf tamperedMetaState = 5 ∧
    lastVersionOf (ezPatch exDiff tamperedMetaState "new") = 101 ∧
    ¬ lastVersionOf (ezPatch exDiff tamperedMetaState "new") =
        lastVersionOf tamperedMetaState + 1 := by
  refine ⟨by decide, by decide, by decide, by decide⟩

/-- Claim C8 as amended: over reachable (untampered) states,
`lastVersion` is non-negative after every successful call, monotonically
non-decreasing, incremented by exactly one on each call that performs a
checkpoint or patch operation, and unchanged on a call that performs
neither. -/
theorem c8_lastVersion_monotonic (diff : String → String → String) (s : SyncState)
    (x : String) (h : Reachable diff s) :
    0 ≤ lastVersionOf (ezPatch diff s x) ∧
    lastVersionOf s ≤ lastVersionOf (ezPatch diff s x) ∧
    (performsOp s = true → lastVersionOf (ezPatch diff s x) = lastVersionOf s + 1) ∧
    (performsOp s = false → lastVersionOf (ezPatch diff s x) = lastVersionOf s) := by
  have hg := reachable_goodState h
  rcases ezPatch_cases diff s x with
      ⟨hpc, hmeta, hck, hsnap, hpf, fc', hfc', hlf', hlv'⟩ |
      ⟨hpp, m, oldf, fc, hm, ho, he, hle, hc, hlf, hmeta, hck, hsnap, hpf, hfc'⟩ |
      ⟨hop, heq, m, fc, hm, hc, ho⟩
  · have hres : lastVersionOf (ezPatch diff s x) = lastVersionOf s + 1 := by
      simp [lastVersionOf, hfc', hlv']
    have hlv := goodState_lastVersion hg
    refine ⟨by omega, by omega, fun _ => hres, fun hopf => ?_⟩
    simp [performsOp, hpc] at hopf
  · rcases hg with rfl | ⟨fc0, m0, hfc0, hlf0, hm0, heq0, hc00, hcl0, hsnap0, hck0⟩
    · simp [initState] at hm
    · have hm' := hm
      rw [hm0] at hm'
      have hmm : m0 = m := Option.some_injective _ hm'
      have hs : lastVersionOf s = m.latest := by
        rw [← hmm, ← heq0]
        simp [lastVersionOf, hfc0]
      have hres : lastVersionOf (ezPatch diff s x) = m.latest + 1 := by
        simp [lastVersionOf, hfc']
      rw [hmm] at hc00 hcl0
      refine ⟨by omega, by omega, fun _ => by omega, fun hopf => ?_⟩
      simp [performsOp, hpp] at hopf
  · rcases hg with rfl | ⟨fc0, m0, hfc0, hlf0, hm0, heq0, hc00, hcl0, hsnap0, hck0⟩
    · simp [initState] at hm
    · have hs : lastVersionOf s = m0.latest := by
        rw [← heq0]
        simp [lastVersionOf, hfc0]
      rw [heq]
      refine ⟨by omega, le_refl _, fun hopt => ?_, fun _ => rfl⟩
      rw [hop] at hopt
      exact absurd hopt (by simp)

/-- Witness for the amended C8 at the first build from the empty state. -/
theorem c8_lastVersion_monotonic_witness :
    0 ≤ lastVersionOf (ezPatch exDiff initState "A") ∧
    lastVersionOf initState ≤ lastVersionOf (ezPatch exDiff initState "A") ∧
    (performsOp initState = true →
      lastVersionOf (ezPatch exDiff initState "A") = lastVersionOf initState + 1) ∧
    (performsOp initState = false →
      lastVersionOf (ezPatch exDiff initState "A") = lastVersionOf initState) :=
  c8_lastVersion_monotonic exDiff initState "A" Reachable.refl

/-- A run of consecutive `ezPatch` calls from a state with
`meta = {checkpoint := c, latest := l}`, a nonempty cached snapshot, and
all-nonempty new contents, as long as `l + N ≤ c + 11`: every call takes
the patch branch, so the meta's `latest` advances one per call, the
checkpoint artifact is untouched, no checkpoint occurs, patch files are
written at the consecutive keys `l - c + 1, …, l - c + N`, each holding
the diff from the previous content to the next, and patch files outside
that key range are untouched. -/
lemma runEz_patchRun (diff : String → String → String) :
    ∀ (xs : List String) (s : SyncState) (f g : String) (c l : Int),
      s.filterConfig = some { lastFile := some f, lastVersion := l } →
      s.metaFile = some { checkpoint := c, latest := l } →
      s.snapshotFile = some g → g ≠ "" → (∀ x ∈ xs, x ≠ "") →
      c ≤ l → l + xs.length ≤ c + 11 →
      (runEz diff s xs).filterConfig =
        some { lastFile := some f, lastVersion := l + xs.length } ∧
      (runEz diff s xs).metaFile =
        some { checkpoint := c, latest := l + xs.length } ∧
      (runEz diff s xs).snapshotFile = some (xs.getLastD g) ∧
      (runEz diff s xs).checkpointFile = s.checkpointFile ∧
      countCheckpoints diff s xs = 0 ∧
      (∀ j : Int, j ≤ l - c ∨ l - c + xs.length < j →
        lookupPatch (runEz diff s xs).patchFiles j = lookupPatch s.patchFiles j) ∧
      (∀ i : Nat, i < xs.length →
        lookupPatch (runEz diff s xs).patchFiles (l - c + i + 1) =
          some (diff ((g :: xs).getD i "") (xs.getD i ""))) := by
  intro xs
  induction xs with
  | nil =>
    intro s f g c l hfc hm ho hg hxs hcl hlen
    refine ⟨by simpa using hfc, by simpa using hm, by simpa using ho, rfl, rfl,
      fun j _ => rfl, fun i hi => absurd hi (by simp)⟩
  | cons x rest ih =>
    intro s f g c l hfc hm ho hg hxs hcl hlen
    have hxne : x ≠ "" := hxs x (by simp)
    have hrestne : ∀ y ∈ rest, y ≠ "" := fun y hy => hxs y (by simp [hy])
    have hro : ¬ (c + 10 < l) := by
      push_cast [List.length_cons] at hlen
      omega
    have hs1 : ezPatch diff s x = { s with
        filterConfig := some { lastFile := some f, lastVersion := l + 1 },
        metaFile := some { checkpoint := c, latest := l + 1 },
        patchFiles := (l + 1 - c, diff g x) :: s.patchFiles,
        snapshotFile := some x } := by
      simp [ezPatch, hfc, hm, ho, hg, hro]
    have hrun : runEz diff s (x :: rest) = runEz diff (ezPatch diff s x) rest := rfl
    obtain ⟨ih1, ih2, ih3, ih4, ih5, ih6, ih7⟩ :=
      ih (ezPatch diff s x) f x c (l + 1)
        (by rw [hs1]) (by rw [hs1]) (by rw [hs1]) hxne hrestne (by omega)
        (by push_cast [List.length_cons] at hlen ⊢; omega)
    have hpc : performsCheckpoint s = false := by
      simp [performsCheckpoint, hfc, hm, ho, hro]
    refine ⟨?_, ?_, ?_, ?_, ?_, ?_, ?_⟩
    · rw [hrun, ih1]
      have hca : l + 1 + (rest.length : Int) = l + ((x :: rest).length : Int) := by
        push_cast [List.length_cons]
        ring
      rw [hca]
    · rw [hrun, ih2]
      have hca : l + 1 + (rest.length : Int) = l + ((x :: rest).length : Int) := by
        push_cast [List.length_cons]
        ring
      rw [hca]
    · rw [hrun, ih3, List.getLastD_cons]
    · rw [hrun, ih4, hs1]
    · have hcc : countCheckpoints diff s (x :: rest) =
          (if performsCheckpoint s then 1 else 0) +
            countCheckpoints diff (ezPatch diff s x) rest := rfl
      rw [hcc, hpc, ih5]
      simp
    · intro j hj
      have hj' : j ≤ l + 1 - c ∨ l + 1 - c + (rest.length : Int) < j := by
        rcases hj with hj | hj
        · exact Or.inl (by omega)
        · right
          push_cast [List.length_cons] at hj
          omega
      have hne : ¬ ((l + 1 - c : Int) = j) := by
        rcases hj with hj | hj
        · omega
        · push_cast [List.length_cons] at hj
          omega
      rw [hrun, ih6 j hj', hs1]
      simp only [lookupPatch]
      rw [if_neg hne]
    · intro i hi
      cases i with
      | zero =>
        have hkey : l - c + ((0 : Nat) : Int) + 1 = l + 1 - c := by
          push_cast
          ring
        rw [hrun, hkey, ih6 (l + 1 - c) (Or.inl (by omega)), hs1]
        simp [lookupPatch]
      | succ i' =>
        have hkey : l - c + ((i' + 1 : Nat) : Int) + 1 = l + 1 - c + (i' : Int) + 1 := by
          push_cast
          ring
        have hi' : i' < rest.length := by
          simpa [List.length_cons] using hi
        rw [hrun, hkey, ih7 i' hi']
        simp

lemma getD_take_lt (l : List String) (k i : Nat) (h : i < k) :
    (l.take k).getD i "" = l.getD i "" := by
  simp [List.getD_eq_getElem?_getD, List.getElem?_take, h]

lemma countCheckpoints_append (diff : String → String → String) :
    ∀ (as : List String) (s : SyncState) (bs : List String),
      countCheckpoints diff s (as ++ bs) =
        countCheckpoints diff s as + countCheckpoints diff (runEz diff s as) bs := by
  intro as
  induction as with
  | nil => intro s bs; simp [countCheckpoints, runEz]
  | cons a rest ih =>
    intro s bs
    have h1 : countCheckpoints diff s ((a :: rest) ++ bs) =
        (if performsCheckpoint s then 1 else 0) +
          countCheckpoints diff (ezPatch diff s a) (rest ++ bs) := rfl
    have h2 : countCheckpoints diff s (a :: rest) =
        (if performsCheckpoint s then 1 else 0) +
          countCheckpoints diff (ezPatch diff s a) rest := rfl
    have h3 : runEz diff s (a :: rest) = runEz diff (ezPatch diff s a) rest := rfl
    rw [h1, h2, h3, ih (ezPatch diff s a) bs]
    omega

/-- Claim C5: starting right after a checkpoint (`latest = checkpoint = c`,
config in agreement) and given N ≤ 11 successive nonempty contents, every
prefix of k calls consists solely of patch operations, leaves
`meta.latest = meta.checkpoint + k`, and the patch files are named
exactly `1.patch … k.patch` with no gaps, `j.patch` holding the diff from
the (j-1)-th content to the j-th (content 0 being the checkpointed
snapshot). -/
theorem c5_sequential_numbering (diff : String → String → String) (s : SyncState)
    (f g : String) (c : Int) (xs : List String)
    (hfc : s.filterConfig = some { lastFile := some f, lastVersion := c })
    (hm : s.metaFile = some { checkpoint := c, latest := c })
    (ho : s.snapshotFile = some g) (hg : g ≠ "")
    (hxs : ∀ x ∈ xs, x ≠ "") (hlen : xs.length ≤ 11) :
    ∀ k : Nat, k ≤ xs.length →
      countCheckpoints diff s (xs.take k) = 0 ∧
      (runEz diff s (xs.take k)).metaFile =
        some { checkpoint := c, latest := c + k } ∧
      (∀ j : Nat, 1 ≤ j → j ≤ k →
        lookupPatch (runEz diff s (xs.take k)).patchFiles j =
          some (diff ((g :: xs).getD (j - 1) "") (xs.getD (j - 1) ""))) := by
  intro k hk
  have htke : (xs.take k).length = k := by
    simp [List.length_take, Nat.min_eq_left hk]
  obtain ⟨h1, h2, h3, h4, h5, h6, h7⟩ :=
    runEz_patchRun diff (xs.take k) s f g c c hfc hm ho hg
      (fun x hx => hxs x (List.mem_of_mem_take hx)) le_rfl
      (by rw [htke]; omega)
  refine ⟨h5, ?_, ?_⟩
  · rw [h2, htke]
  · intro j h1j hjk
    have hj1 : j - 1 < (xs.take k).length := by omega
    have hkey : (j : Int) = c - c + ((j - 1 : Nat) : Int) + 1 := by omega
    have hconsD : (g :: xs.take k).getD (j - 1) "" = (g :: xs).getD (j - 1) "" := by
      rw [← List.take_succ_cons]
      exact getD_take_lt _ _ _ (by omega)
    have htailD : (xs.take k).getD (j - 1) "" = xs.getD (j - 1) "" :=
      getD_take_lt _ _ _ (by omega)
    rw [hkey, h7 (j - 1) hj1, hconsD, htailD]

/-- Witness for C5: two patches from a concrete just-checkpointed state,
`1.patch` holding the diff from the checkpoint content to the first
update. -/
theorem c5_sequential_numbering_witness :
    lookupPatch (runEz exDiff (ezPatch exDiff initState "A") (["B", "C"].take 2)).patchFiles 1 =
      some (exDiff (("A" :: ["B", "C"]).getD 0 "") (["B", "C"].getD 0 "")) :=
  (c5_sequential_numbering exDiff (ezPatch exDiff initState "A") genName "A" 0 ["B", "C"]
    (by decide) (by decide) (by decide) (by decide) (by decide) (by decide)
    2 (by decide)).2.2 1 (by decide) (by decide)

/-- Claim C1 counterexample: from a just-checkpointed state, 11 successive
calls with changed content trigger zero automatic re-checkpoints (not
one), and afterwards `meta.checkpoint = 0 ≠ 11 = meta.latest`.  The code
checks `meta.latest > meta.checkpoint + 10` before patching, so the
re-checkpoint only happens on the 12th call. -/
theorem c1_counterexample :
    c1Inputs.length = 11 ∧
    countCheckpoints exDiff c1Start c1Inputs = 0 ∧
    (runEz exDiff c1Start c1Inputs).metaFile = some { checkpoint := 0, latest := 11 } := by
  refine ⟨by decide, by decide, by decide⟩

/-- Claim C1 as amended: starting just after a checkpoint at version `v`
(`meta.latest = meta.checkpoint = v`), 12 successive calls with nonempty
contents trigger exactly one automatic re-checkpoint, occurring at the
12th call (the first 11 calls are all patches, and at the 12th the span
`latest - checkpoint` is 11 > 10); afterwards
`meta.checkpoint = meta.latest = v + 12`. -/
theorem c1_rollover_at_twelfth_call (diff : String → String → String) (s : SyncState)
    (f g : String) (v : Int) (xs : List String)
    (hfc : s.filterConfig = some { lastFile := some f, lastVersion := v })
    (hm : s.metaFile = some { checkpoint := v, latest := v })
    (ho : s.snapshotFile = some g) (hg : g ≠ "")
    (hxs : ∀ x ∈ xs, x ≠ "") (hlen : xs.length = 12) :
    countCheckpoints diff s (xs.take 11) = 0 ∧
    (runEz diff s (xs.take 11)).metaFile = some { checkpoint := v, latest := v + 11 } ∧
    countCheckpoints diff s xs = 1 ∧
    (runEz diff s xs).metaFile = some { checkpoint := v + 12, latest := v + 12 } := by
  have htke : (xs.take 11).length = 11 := by
    simp [List.length_take, hlen]
  obtain ⟨h1, h2, h3, h4, h5, h6, h7⟩ :=
    runEz_patchRun diff (xs.take 11) s f g v v hfc hm ho hg
      (fun x hx => hxs x (List.mem_of_mem_take hx)) le_rfl (by rw [htke]; omega)
  rw [htke] at h1 h2
  push_cast at h1 h2
  have hd : (xs.drop 11).length = 1 := by
    simp [hlen]
  obtain ⟨y, hy⟩ := List.length_eq_one.mp hd
  have hx12 : xs = xs.take 11 ++ [y] := by
    rw [← hy, List.take_append_drop]
  have hsn : (xs.take 11).getLastD g ≠ "" := by
    have hmem := List.getLastD_mem_cons (xs.take 11) g
    rcases List.mem_cons.mp hmem with hgg | hmem'
    · rw [hgg]; exact hg
    · exact hxs _ (List.mem_of_mem_take hmem')
  rw [List.getLastD_eq_getLast?] at hsn
  have hroll : (v : Int) + 10 < v + 11 := by omega
  have hs12 : (ezPatch diff (runEz diff s (xs.take 11)) y).metaFile =
      some { checkpoint := v + 11 + 1, latest := v + 11 + 1 } := by
    simp [ezPatch, createCheckpoint, h1, h2, h3, hsn, hroll]
  have hv12 : (v : Int) + 11 + 1 = v + 12 := by ring
  rw [hv12] at hs12
  have hpc11 : performsCheckpoint (runEz diff s (xs.take 11)) = true := by
    simp [performsCheckpoint, h1, h2, h3, hsn, hroll]
  have hcnt1 : countCheckpoints diff (runEz diff s (xs.take 11)) [y] = 1 := by
    have hh : countCheckpoints diff (runEz diff s (xs.take 11)) [y] =
        (if performsCheckpoint (runEz diff s (xs.take 11)) then 1 else 0) +
          countCheckpoints diff (ezPatch diff (runEz diff s (xs.take 11)) y) [] := rfl
    rw [hh, hpc11]
    rfl
  have hrw : runEz diff s xs = ezPatch diff (runEz diff s (xs.take 11)) y := by
    conv_lhs => rw [hx12]
    rw [runEz, List.foldl_append]
    rfl
  refine ⟨h5, by rw [h2], ?_, ?_⟩
  · conv_lhs => rw [hx12]
    rw [countCheckpoints_append, h5, hcnt1]
  · rw [hrw, hs12]

/-- Witness for the amended C1: the rollover on twelve concrete calls. -/
theorem c1_rollover_at_twelfth_call_witness :
    countCheckpoints exDiff c1Start ((c1Inputs ++ ["v12"]).take 11) = 0 ∧
    (runEz exDiff c1Start ((c1Inputs ++ ["v12"]).take 11)).metaFile =
      some { checkpoint := 0, latest := 0 + 11 } ∧
    countCheckpoints exDiff c1Start (c1Inputs ++ ["v12"]) = 1 ∧
    (runEz exDiff c1Start (c1Inputs ++ ["v12"])).metaFile =
      some { checkpoint := 0 + 12, latest := 0 + 12 } :=
  c1_rollover_at_twelfth_call exDiff c1Start "cache.txt" "v0" 0 (c1Inputs ++ ["v12"])
    (by decide) (by decide) (by decide) (by decide) (by decide) (by decide)

lemma histInv_first (diff : String → String → String) (x : String) :
    HistInv diff (ezPatch diff initState x) [x] := by
  refine ⟨{ lastFile := some genName, lastVersion := 0 },
    { checkpoint := 0, latest := 0 },
    ?_, rfl, ?_, rfl, le_refl 0, le_refl 0, ?_, ?_, ?_, ?_⟩
  · simp [ezPatch, createCheckpoint, initState]
  · simp [ezPatch, createCheckpoint, initState]
  · show (0 : Int) + 1 = ((1 : Nat) : Int)
    norm_num
  · show (ezPatch diff initState x).snapshotFile = [x][(0 : Int).toNat]?
    simp [ezPatch, createCheckpoint, initState]
  · show (ezPatch diff initState x).checkpointFile = [x][(0 : Int).toNat]?
    simp [ezPatch, createCheckpoint, initState]
  · intro j hj
    have hj2 : (j : Int) < 0 - 0 := hj
    exact absurd hj2 (by omega)

lemma histInv_step (diff : String → String → String) (s : SyncState) (hist : List String)
    (x : String) (h : HistInv diff s hist) :
    HistInv diff (ezPatch diff s x) (if performsOp s then hist ++ [x] else hist) := by
  obtain ⟨fc0, m0, hfc0, hlf0, hm0, heq0, hc00, hcl0, hlen0, hsnap0, hck0, hpatch0⟩ := h
  rcases ezPatch_cases diff s x with
      ⟨hpc, hmeta, hck, hsnap, hpf, fc', hfc', hlf', hlv'⟩ |
      ⟨hpp, m, oldf, fc, hm, ho, he, hle, hc, hlf, hmeta, hck, hsnap, hpf, hfc'⟩ |
      ⟨hop, heq, m, fc, hm, hc, ho⟩
  · -- checkpoint branch
    have hopT : performsOp s = true := by simp [performsOp, hpc]
    rw [if_pos hopT]
    have hlvs : lastVersionOf s = m0.latest := by
      simp [lastVersionOf, hfc0, heq0]
    rw [hlvs] at hmeta hlv'
    have hidx : (m0.latest + 1).toNat = hist.length := by omega
    refine ⟨fc', { checkpoint := m0.latest + 1, latest := m0.latest + 1 },
      hfc', hlf', hmeta, hlv', ?_, ?_, ?_, ?_, ?_, ?_⟩
    · show 0 ≤ m0.latest + 1
      omega
    · show m0.latest + 1 ≤ m0.latest + 1
      omega
    · show m0.latest + 1 + 1 = ((hist ++ [x]).length : Int)
      rw [List.length_append, List.length_singleton]
      push_cast
      omega
    · show (ezPatch diff s x).snapshotFile = (hist ++ [x])[(m0.latest + 1).toNat]?
      rw [hsnap, hidx, List.getElem?_concat_length]
    · show (ezPatch diff s x).checkpointFile = (hist ++ [x])[(m0.latest + 1).toNat]?
      rw [hck, hidx, List.getElem?_concat_length]
    · intro j hj
      have hj' : (j : Int) < m0.latest + 1 - (m0.latest + 1) := hj
      exact absurd hj' (by omega)
  · -- patch branch
    have hopT : performsOp s = true := by simp [performsOp, hpp]
    rw [if_pos hopT]
    have hmm : m0 = m := by
      rw [hm0] at hm
      exact Option.some_injective _ hm
    rw [hmm] at hc00 hcl0 hlen0 hsnap0 hck0 hpatch0 heq0
    have hidx : (m.latest + 1).toNat = hist.length := by omega
    have hclt : m.checkpoint.toNat < hist.length := by omega
    refine ⟨{ fc with lastVersion := m.latest + 1 },
      { checkpoint := m.checkpoint, latest := m.latest + 1 },
      hfc', hlf, hmeta, rfl, ?_, ?_, ?_, ?_, ?_, ?_⟩
    · show 0 ≤ m.checkpoint
      omega
    · show m.checkpoint ≤ m.latest + 1
      omega
    · show m.latest + 1 + 1 = ((hist ++ [x]).length : Int)
      rw [List.length_append, List.length_singleton]
      push_cast
      omega
    · show (ezPatch diff s x).snapshotFile = (hist ++ [x])[(m.latest + 1).toNat]?
      rw [hsnap, hidx, List.getElem?_concat_length]
    · show (ezPatch diff s x).checkpointFile = (hist ++ [x])[m.checkpoint.toNat]?
      rw [hck, hck0, List.getElem?_append_left hclt]
    · intro j hj
      have hj' : (j : Int) < m.latest + 1 - m.checkpoint := hj
      by_cases hcase : (j : Int) < m.latest - m.checkpoint
      · obtain ⟨a, b, ha, hb, hp⟩ := hpatch0 j hcase
        have h1 : m.checkpoint.toNat + j < hist.length := by omega
        have h2 : m.checkpoint.toNat + j + 1 < hist.length := by omega
        have hne : ¬ ((m.latest + 1 - m.checkpoint : Int) = (j : Int) + 1) := by omega
        refine ⟨a, b, ?_, ?_, ?_⟩
        · rw [List.getElem?_append_left h1]
          exact ha
        · rw [List.getElem?_append_left h2]
          exact hb
        · rw [hpf]
          simp only [lookupPatch]
          rw [if_neg hne]
          exact hp
      · have hjeq : (j : Int) = m.latest - m.checkpoint := by omega
        have h1 : m.checkpoint.toNat + j = m.latest.toNat := by omega
        have h1lt : m.latest.toNat < hist.length := by omega
        have h2 : m.checkpoint.toNat + j + 1 = hist.length := by omega
        have hkey : ((m.latest + 1 - m.checkpoint : Int)) = (j : Int) + 1 := by omega
        refine ⟨oldf, x, ?_, ?_, ?_⟩
        · rw [h1, List.getElem?_append_left h1lt]
          rw [← hsnap0]
          exact ho
        · rw [h2, List.getElem?_concat_length]
        · rw [hpf]
          simp only [lookupPatch]
          rw [if_pos hkey]
  · -- empty-snapshot no-op
    rw [hop, if_neg (by simp), heq]
    exact ⟨fc0, m0, hfc0, hlf0, hm0, heq0, hc00, hcl0, hlen0, hsnap0, hck0, hpatch0⟩

lemma histInv_fold (diff : String → String → String) :
    ∀ (inputs : List String) (p : SyncState × List String),
      HistInv diff p.1 p.2 →
      HistInv diff (inputs.foldl (stepH diff) p).1 (inputs.foldl (stepH diff) p).2 := by
  intro inputs
  induction inputs with
  | nil => intro p h; exact h
  | cons x rest ih =>
    intro p h
    exact ih (stepH diff p x) (histInv_step diff p.1 p.2 x h)

/-- Claim C2: for every sequence of successful calls from the empty
initial state (no tampering), assuming the external pair satisfies
`ap old (diff old new) = new`, applying the content of `checkpoint.txt`
and then `1.patch … k.patch` in ascending order (left to right)
reproduces exactly the filter content passed to the call that produced
version `checkpoint + k`, for every `k ≤ latest - checkpoint`; the ghost
list `(runH diff inputs).2` records, per version, the content passed to
the call that produced it. -/
theorem c2_roundtrip (diff ap : String → String → String)
    (hap : ∀ a b, ap a (diff a b) = b)
    (inputs : List String) (hne : inputs ≠ [])
    (m : Meta) (hm : (runH diff inputs).1.metaFile = some m)
    (k : Nat) (hk : (k : Int) ≤ m.latest - m.checkpoint) :
    reconstruct ap (runH diff inputs).1 k =
      (runH diff inputs).2[m.checkpoint.toNat + k]? := by
  obtain ⟨x, rest, rfl⟩ := List.exists_cons_of_ne_nil hne
  have h0 : HistInv diff (stepH diff (initState, []) x).1 (stepH diff (initState, []) x).2 := by
    have hop : performsOp initState = true := rfl
    have h2 : (stepH diff (initState, []) x).2 = [x] := by
      simp [stepH, hop]
    have h1 : (stepH diff (initState, []) x).1 = ezPatch diff initState x := rfl
    rw [h1, h2]
    exact histInv_first diff x
  have hrun : runH diff (x :: rest) = rest.foldl (stepH diff) (stepH diff (initState, []) x) :=
    rfl
  have hinv := histInv_fold diff rest (stepH diff (initState, []) x) h0
  rw [← hrun] at hinv
  obtain ⟨fc, m0, hfc, hlf, hm0, heq, hc0, hcl, hlen, hsnap, hck, hpatch⟩ := hinv
  rw [hm0] at hm
  have hmm : m0 = m := Option.some_injective _ hm
  rw [← hmm] at hk ⊢
  revert hk
  induction k with
  | zero =>
    intro _
    simpa using hck
  | succ k ih =>
    intro hk
    have ihh := ih (by omega)
    obtain ⟨a, b, ha, hb, hp⟩ := hpatch k (by omega)
    have hstep : reconstruct ap (runH diff (x :: rest)).1 (k + 1) =
        match reconstruct ap (runH diff (x :: rest)).1 k,
          lookupPatch (runH diff (x :: rest)).1.patchFiles ((k : Int) + 1) with
        | some acc, some p => some (ap acc p)
        | _, _ => none := rfl
    rw [hstep, ihh, ha, hp]
    show some (ap a (diff a b)) = (runH diff (x :: rest)).2[m0.checkpoint.toNat + (k + 1)]?
    rw [hap a b]
    exact hb.symm

/-- Witness for C2 on a concrete two-call run: `checkpoint.txt` plus
`1.patch` reproduce the content of version 1. -/
theorem c2_roundtrip_witness :
    (runH exDiff ["A", "B"]).1.metaFile = some { checkpoint := 0, latest := 1 } ∧
    reconstruct exApply (runH exDiff ["A", "B"]).1 1 =
      (runH exDiff ["A", "B"]).2[(0 : Int).toNat + 1]? :=
  ⟨by decide, c2_roundtrip exDiff exApply (fun a b => rfl) ["A", "B"] (by decide)
    { checkpoint := 0, latest := 1 } (by decide) 1 (by decide)⟩
